import Mathlib

/-!
Shallow embedding of the Olist dashboard's data-preparation pipeline and
page queries (src/app.py).  Tables are lists of records; pandas left merges
are modelled as flatMap with a null-filled row when no right-hand match
exists; nullable columns are Option-valued; timestamps are integers
(seconds since the epoch), and the derived calendar columns
(day_of_week, hour, month_year) are computed from them.
-/

namespace Olist

/-! Base tables (only the columns the queries touch). -/

/-- Row of olist_orders_dataset after date parsing (app.py lines 60-63).
A missing delivered date parses to NaT, modelled as none. -/
structure Order where
  order_id : Nat
  customer_id : Nat
  order_purchase_timestamp : Int
  order_delivered_customer_date : Option Int
deriving DecidableEq

/-- Row of olist_order_items_dataset. -/
structure Item where
  order_id : Nat
  order_item_id : Nat
  product_id : Nat
  price : ℚ
  freight_value : ℚ
deriving DecidableEq

/-- Row of olist_products_dataset; category name and weight may be missing. -/
structure Product where
  product_id : Nat
  product_category_name : Option String
  product_weight_g : Option ℚ
deriving DecidableEq

/-- Row of product_category_name_translation. -/
structure CategoryTranslation where
  product_category_name : Option String
  product_category_name_english : Option String
deriving DecidableEq

/-- Row of olist_customers_dataset. -/
structure Customer where
  customer_id : Nat
  customer_city : String
  customer_state : String
deriving DecidableEq

/-- Row of olist_order_reviews_dataset after date parsing. -/
structure Review where
  review_id : Nat
  order_id : Nat
  review_score : Nat
  review_creation_date : Int
deriving DecidableEq

/-- Row of olist_order_payments_dataset. -/
structure Payment where
  order_id : Nat
  payment_type : String
  payment_installments : Nat
  payment_value : ℚ
deriving DecidableEq

/-! Calendar helpers for the pandas dt accessors. -/

/-- Date portion of a timestamp (pandas Series.dt.date): the epoch day number,
floor division so pre-epoch timestamps also land on their civil day. -/
def tsDate (ts : Int) : Int := Int.fdiv ts 86400

/-- Weekday names in the dashboard's canonical order (app.py line 190). -/
def dayOrder : List String :=
  ["Monday", "Tuesday", "Wednesday", "Thursday", "Friday", "Saturday", "Sunday"]

/-- Full weekday name of a timestamp (pandas Series.dt.day_name).
Epoch day 0 (1970-01-01) was a Thursday, index 3 in dayOrder. -/
def dayName (ts : Int) : String := dayOrder.getD ((tsDate ts + 3).emod 7).toNat "Monday"

/-- Hour of day, 0-23 (pandas Series.dt.hour). -/
def tsHour (ts : Int) : Nat := (Int.emod ts 86400).toNat / 3600

/-- Civil (year, month) of an epoch day number, by the standard
days-to-civil conversion on the proleptic Gregorian calendar. -/
def civilYM (z : Int) : Int × Nat :=
  let z2 := z + 719468
  let era : Int := Int.fdiv z2 146097
  let doe : Nat := (z2 - era * 146097).toNat
  let yoe : Nat := (doe - doe / 1460 + doe / 36524 - doe / 146096) / 365
  let doy : Nat := doe - (365 * yoe + yoe / 4 - yoe / 100)
  let mp : Nat := (5 * doy + 2) / 153
  let m : Nat := if mp < 10 then mp + 3 else mp - 9
  ((yoe : Int) + era * 400 + (if m ≤ 2 then 1 else 0), m)

/-- Month bucket of a timestamp (pandas Series.dt.to_period with monthly
frequency): the civil year and month of its date. -/
def monthKey (ts : Int) : Int × Nat := civilYM (tsDate ts)

/-! Generic list helpers mirroring pandas primitives. -/

/-- Distinct elements of a list in order of first occurrence (the key order
pandas hash tables produce before any sorting). -/
def firstDedup {α : Type} [DecidableEq α] : List α → List α
  | [] => []
  | x :: xs => x :: (firstDedup xs).filter (fun y => decide (y ≠ x))

/-- Lexicographic comparison of character lists by code point. -/
def charListLE : List Char → List Char → Bool
  | [], _ => true
  | _ :: _, [] => false
  | c :: cs, d :: ds =>
    if c.toNat < d.toNat then true
    else if d.toNat < c.toNat then false
    else charListLE cs ds

/-- Boolean order on strings, used for sorted group keys: lexicographic by
Unicode code point, which is how Python compares the key strings. -/
def strLE (a b : String) : Bool := charListLE a.data b.data

/-- Boolean order on naturals. -/
def natLE (a b : Nat) : Bool := decide (a ≤ b)

/-- Boolean lexicographic order on (year, month) pairs. -/
def ymLE (a b : Int × Nat) : Bool :=
  decide (a.1 < b.1) || (decide (a.1 = b.1) && decide (a.2 ≤ b.2))

/-- Insertion step of a stable ascending sort: the new element goes in
front of the first position whose element it is le-related to, so it lands
before any element it ties with. -/
def insertLE {α : Type} (le : α → α → Bool) (a : α) : List α → List α
  | [] => [a]
  | b :: bs => if le a b then a :: b :: bs else b :: insertLE le a bs

/-- Stable ascending sort (insertion sort): elements that compare equal
keep their input order, which is how a stable ascending argsort behaves. -/
def sortAsc {α : Type} (le : α → α → Bool) : List α → List α
  | [] => []
  | x :: xs => insertLE le x (sortAsc le xs)

/-- Distinct keys sorted ascending, as pandas groupby produces with its
default sort flag. -/
def sortedKeys {α : Type} [DecidableEq α] (le : α → α → Bool) (ks : List α) : List α :=
  sortAsc le (firstDedup ks)

/-- Descending sort of a keyed table by its value column, as pandas
sort_values with ascending set to false computes it: nargsort reverses the
row sequence, argsorts it ascending (stably, which numpy's kernel is in its
small-array insertion-sort regime), and reverses the resulting indexer
again, so this double reversal leaves tied values in their original input
order. -/
def sortValuesDesc {α β : Type} (le : β → β → Bool) (l : List (α × β)) : List (α × β) :=
  (sortAsc (fun a b => le a.2 b.2) l.reverse).reverse

/-- Descending sort by a nullable value column: pandas nargsort sorts the
non-null entries with the same reverse-argsort-reverse scheme and appends
the null entries, in original order, at the end (na_position last). -/
def sortValuesDescOpt {α : Type} (l : List (α × Option ℚ)) : List (α × Option ℚ) :=
  (sortAsc (fun a b => decide (a.2.getD 0 ≤ b.2.getD 0))
      ((l.filter (fun p => p.2.isSome)).reverse)).reverse
    ++ l.filter (fun p => !p.2.isSome)

/-- Value counts of a nullable column (pandas value_counts): null entries are
dropped, each distinct value is counted, and the result is sorted by count
descending. -/
def valueCounts {α : Type} [DecidableEq α] (xs : List (Option α)) : List (α × Nat) :=
  sortValuesDesc natLE
    ((firstDedup (xs.filterMap id)).map
      (fun v => (v, xs.countP (fun x => decide (x = some v)))))

/-! The loader's product preparation (app.py lines 69-70). -/

/-- Product row carrying the merged english category column. -/
structure ProductT where
  product_id : Nat
  product_category_name : Option String
  product_category_name_english : Option String
  product_weight_g : Option ℚ
deriving DecidableEq

/-- Left merge of products with the category-translation table on the raw
category name (app.py line 69).  Pandas matches missing keys against
missing keys, which Option equality reproduces; a product with no matching
translation row keeps a null english name. -/
def translateProducts (ps : List Product) (ts : List CategoryTranslation) : List ProductT :=
  ps.flatMap (fun p =>
    match ts.filter (fun t => decide (t.product_category_name = p.product_category_name)) with
    | [] => [⟨p.product_id, p.product_category_name, none, p.product_weight_g⟩]
    | ms => ms.map (fun t =>
        ⟨p.product_id, p.product_category_name, t.product_category_name_english, p.product_weight_g⟩))

/-- The fillna on the english category column (app.py line 70): a null
english name is replaced by the raw category name of the same row. -/
def fillCategoryEnglish (ps : List ProductT) : List ProductT :=
  ps.map (fun p =>
    { p with product_category_name_english :=
        match p.product_category_name_english with
        | some s => some s
        | none => p.product_category_name })

/-- Products as stored by load_data: translated then null-filled. -/
def prepareProducts (ps : List Product) (ts : List CategoryTranslation) : List ProductT :=
  fillCategoryEnglish (translateProducts ps ts)

/-! The master-table merge chain (app.py lines 76-92). -/

/-- Left merge of orders with items on order_id (app.py line 76): every
order row is kept; an order with no matching item keeps one row with null
item columns; an item whose order_id matches no order contributes nothing. -/
def mergeOrderItems (orders : List Order) (items : List Item) : List (Order × Option Item) :=
  orders.flatMap (fun o =>
    match items.filter (fun i => decide (i.order_id = o.order_id)) with
    | [] => [(o, none)]
    | ms => ms.map (fun i => (o, some i)))

/-- Left merge with the prepared products on product_id (app.py line 79).
The product_id column of the left frame is null on rows whose order had no
items, and a null key matches no product. -/
def mergeWithProducts (rs : List (Order × Option Item)) (ps : List ProductT) :
    List ((Order × Option Item) × Option ProductT) :=
  rs.flatMap (fun r =>
    match ps.filter (fun p => decide (r.2.map Item.product_id = some p.product_id)) with
    | [] => [(r, none)]
    | ms => ms.map (fun p => (r, some p)))

/-- Left merge with customers on customer_id (app.py line 82). -/
def mergeWithCustomers (rs : List ((Order × Option Item) × Option ProductT))
    (cs : List Customer) :
    List (((Order × Option Item) × Option ProductT) × Option Customer) :=
  rs.flatMap (fun r =>
    match cs.filter (fun c => decide (c.customer_id = r.1.1.customer_id)) with
    | [] => [(r, none)]
    | ms => ms.map (fun c => (r, some c)))

/-- Row of the denormalized master table, with the derived calendar columns
added at app.py lines 89-92. -/
structure FactRow where
  order_id : Nat
  customer_id : Nat
  order_purchase_timestamp : Int
  order_delivered_customer_date : Option Int
  order_item_id : Option Nat
  product_id : Option Nat
  price : Option ℚ
  freight_value : Option ℚ
  product_category_name_english : Option String
  customer_city : Option String
  customer_state : Option String
  month_year : Int × Nat
  day_of_week : String
  hour : Nat
deriving DecidableEq

/-- Assembles one master row from the joined pieces and derives the
calendar columns from the purchase timestamp. -/
def mkFactRow (o : Order) (i : Option Item) (p : Option ProductT) (c : Option Customer) :
    FactRow where
  order_id := o.order_id
  customer_id := o.customer_id
  order_purchase_timestamp := o.order_purchase_timestamp
  order_delivered_customer_date := o.order_delivered_customer_date
  order_item_id := i.map Item.order_item_id
  product_id := i.map Item.product_id
  price := i.map Item.price
  freight_value := i.map Item.freight_value
  product_category_name_english := p.bind ProductT.product_category_name_english
  customer_city := c.map Customer.customer_city
  customer_state := c.map Customer.customer_state
  month_year := monthKey o.order_purchase_timestamp
  day_of_week := dayName o.order_purchase_timestamp
  hour := tsHour o.order_purchase_timestamp

/-- The master table built by load_data (app.py lines 69-92): products are
translated and null-filled, then orders are left-merged with items, the
result with products, then with customers, and the calendar columns are
derived. -/
def buildMaster (orders : List Order) (items : List Item) (products : List Product)
    (customers : List Customer) (trans : List CategoryTranslation) : List FactRow :=
  (mergeWithCustomers
      (mergeWithProducts (mergeOrderItems orders items) (prepareProducts products trans))
      customers).map
    (fun r => mkFactRow r.1.1.1 r.1.1.2 r.1.2 r.2)

/-! The sidebar date-range filter (app.py lines 137-145). -/

/-- The date predicate both filters use: the date portion of the purchase
timestamp lies between start and end, both inclusive. -/
def datePred (s e : Int) (ts : Int) : Bool :=
  decide (s ≤ tsDate ts) && decide (tsDate ts ≤ e)

/-- Restriction of the master table to the selected range (app.py 137-140). -/
def filterFact (rows : List FactRow) (s e : Int) : List FactRow :=
  rows.filter (fun r => datePred s e r.order_purchase_timestamp)

/-- Restriction of the raw orders table to the selected range (app.py 142-145). -/
def filterOrders (os : List Order) (s e : Int) : List Order :=
  os.filter (fun o => datePred s e o.order_purchase_timestamp)

/-! Overview page queries (app.py lines 154-175). -/

/-- Sum of the price column; pandas sum skips nulls and yields 0 on an
all-null or empty column. -/
def priceSum (rows : List FactRow) : ℚ := (rows.filterMap FactRow.price).sum

/-- Total revenue over the filtered master table (app.py line 154). -/
def totalRevenue (rows : List FactRow) : ℚ := priceSum rows

/-- Distinct order count over the filtered orders (app.py line 155). -/
def totalOrders (os : List Order) : Nat := (firstDedup (os.map Order.order_id)).length

/-- Average order value (app.py lines 156-159): revenue over distinct order
count when there are orders, otherwise 0. -/
def avgOrderValue (rows : List FactRow) (os : List Order) : ℚ :=
  if totalOrders os > 0 then totalRevenue rows / (totalOrders os : ℚ) else 0

/-- Whole-day delivery duration of an order (app.py timedelta dt.days):
floor of the second difference over 86400, null when the order has no
delivered date. -/
def deliveryDays (o : Order) : Option Int :=
  o.order_delivered_customer_date.map (fun d => Int.fdiv (d - o.order_purchase_timestamp) 86400)

/-- Mean delivery days over the filtered orders (app.py line 161): pandas
mean skips nulls and yields NaN, modelled none, when nothing remains. -/
def avgDeliveryDays (os : List Order) : Option ℚ :=
  let xs := os.filterMap deliveryDays
  if xs.length = 0 then none else some ((xs.map (fun d => (d : ℚ))).sum / (xs.length : ℚ))

/-- Monthly revenue trend (app.py line 174): group the filtered master table
by month bucket, sum price, keys ascending. -/
def salesOverTime (rows : List FactRow) : List ((Int × Nat) × ℚ) :=
  (sortedKeys ymLE (rows.map FactRow.month_year)).map
    (fun k => (k, priceSum (rows.filter (fun r => decide (r.month_year = k)))))

/-! Sales Analysis page queries (app.py lines 190-200). -/

/-- Revenue grouped by the day_of_week column, keys sorted as pandas
groupby leaves them (alphabetically ascending). -/
def salesByDayGrouped (rows : List FactRow) : List (String × ℚ) :=
  (sortedKeys strLE (rows.map FactRow.day_of_week)).map
    (fun k => (k, priceSum (rows.filter (fun r => decide (r.day_of_week = k)))))

/-- Sales by day of week (app.py lines 190-191): the grouped sums reindexed
to the canonical Monday-Sunday order; a weekday absent from the group keys
gets a null value, as reindex fills missing labels with NaN. -/
def salesByDay (rows : List FactRow) : List (String × Option ℚ) :=
  dayOrder.map (fun d =>
    (d, ((salesByDayGrouped rows).find? (fun p => decide (p.1 = d))).map Prod.snd))

/-- Revenue grouped by hour of day (app.py line 200), keys ascending. -/
def salesByHour (rows : List FactRow) : List (Nat × ℚ) :=
  (sortedKeys natLE (rows.map FactRow.hour)).map
    (fun k => (k, priceSum (rows.filter (fun r => decide (r.hour = k)))))

/-! Product Insights page queries (app.py lines 212-225). -/

/-- Revenue grouped by english category name (app.py line 214, before the
sort): pandas groupby drops null keys and sorts the remaining keys
ascending. -/
def groupedCategorySales (rows : List FactRow) : List (String × ℚ) :=
  (sortedKeys strLE (rows.filterMap FactRow.product_category_name_english)).map
    (fun k => (k, priceSum (rows.filter
      (fun r => decide (r.product_category_name_english = some k)))))

/-- Top categories by revenue (app.py line 214): the grouped table sorted
descending by revenue, keeping the first top_n rows. -/
def categorySales (rows : List FactRow) (top_n : Nat) : List (String × ℚ) :=
  (sortValuesDesc (fun a b => decide (a ≤ b)) (groupedCategorySales rows)).take top_n

/-- Price column fed to the price histogram (app.py line 225); nulls are
dropped by the plotting aggregation. -/
def priceValues (rows : List FactRow) : List ℚ := rows.filterMap FactRow.price

/-! Customer Demographics page queries (app.py lines 236-243). -/

/-- Top-10 states by master-table row count (app.py line 236). -/
def stateCounts (rows : List FactRow) : List (String × Nat) :=
  (valueCounts (rows.map FactRow.customer_state)).take 10

/-- Top-10 cities by master-table row count (app.py line 243). -/
def cityCounts (rows : List FactRow) : List (String × Nat) :=
  (valueCounts (rows.map FactRow.customer_city)).take 10

/-! Review Analysis page queries (app.py lines 258-276). -/

/-- Reviews whose order_id is in the filtered order set (app.py lines
258-259, the isin restriction). -/
def relevantReviews (rs : List Review) (os : List Order) : List Review :=
  rs.filter (fun r => os.any (fun o => decide (o.order_id = r.order_id)))

/-- Review score distribution (app.py line 261): value counts of the
relevant reviews' scores, then sorted ascending by score. -/
def reviewDist (rs : List Review) (os : List Order) : List (Nat × Nat) :=
  (sortedKeys natLE ((relevantReviews rs os).map Review.review_score)).map
    (fun v => (v, (relevantReviews rs os).countP (fun r => decide (r.review_score = v))))

/-- Inner merge of the relevant reviews with the filtered orders on
order_id (app.py line 272). -/
def reviewsOrders (rs : List Review) (os : List Order) : List (Review × Order) :=
  (relevantReviews rs os).flatMap (fun r =>
    (os.filter (fun o => decide (o.order_id = r.order_id))).map (fun o => (r, o)))

/-- Rows feeding the delivery-time-vs-score boxplot (app.py lines 273-276):
delivery days are derived per merged row, and the comparison with 50 keeps
a row only when its delivery days are defined and below 50, since a null
comparison is false in pandas. -/
def boxInput (rs : List Review) (os : List Order) : List (Review × Order × Int) :=
  (reviewsOrders rs os).filterMap (fun ro =>
    match deliveryDays ro.2 with
    | some d => if d < 50 then some (ro.1, ro.2, d) else none
    | none => none)

/-! Payment Analysis page queries (app.py lines 288-314). -/

/-- Payments whose order_id is in the filtered order set (app.py line 290). -/
def relevantPayments (ps : List Payment) (os : List Order) : List Payment :=
  ps.filter (fun p => os.any (fun o => decide (o.order_id = p.order_id)))

/-- Payment type distribution (app.py line 296). -/
def paymentTypeCounts (ps : List Payment) (os : List Order) : List (String × Nat) :=
  valueCounts ((relevantPayments ps os).map (fun p => some p.payment_type))

/-- Installment column feeding the installment histogram (app.py line 307). -/
def installmentValues (ps : List Payment) (os : List Order) : List Nat :=
  (relevantPayments ps os).map Payment.payment_installments

/-- Payments below the 1000 outlier clamp (app.py line 314). -/
def safePayments (ps : List Payment) (os : List Order) : List Payment :=
  (relevantPayments ps os).filter (fun p => decide (p.payment_value < 1000))

/-! Delivery Analysis page queries (app.py lines 325-367). -/

/-- Filtered orders with their delivery days, rows with a null delivery
duration dropped (app.py lines 325-327). -/
def deliveryTable (os : List Order) : List (Order × Int) :=
  os.filterMap (fun o => (deliveryDays o).map (fun d => (o, d)))

/-- Left merge of items with the prepared products' weight column
(app.py line 346). -/
def itemsProducts (items : List Item) (ps : List ProductT) : List (Item × Option ℚ) :=
  items.flatMap (fun i =>
    match ps.filter (fun p => decide (p.product_id = i.product_id)) with
    | [] => [(i, none)]
    | ms => ms.map (fun p => (i, p.product_weight_g)))

/-- Scatter input: item-weight rows restricted to the filtered orders
(app.py line 349).  The 5000-point down-sampling at lines 352-355 is a
presentation concern; the query itself is this full set. -/
def relevantItems (items : List Item) (ps : List ProductT) (os : List Order) :
    List (Item × Option ℚ) :=
  (itemsProducts items ps).filter
    (fun r => os.any (fun o => decide (o.order_id = r.1.order_id)))

/-- Mean of the freight column of a group of master rows; pandas mean skips
nulls and yields NaN, modelled none, when nothing remains. -/
def freightMean (rows : List FactRow) : Option ℚ :=
  let xs := rows.filterMap FactRow.freight_value
  if xs.length = 0 then none else some (xs.sum / (xs.length : ℚ))

/-- Mean freight value by customer state, sorted descending (app.py line
367): groupby drops the null states, and sort_values puts null means last. -/
def stateFreight (rows : List FactRow) : List (String × Option ℚ) :=
  sortValuesDescOpt
    ((sortedKeys strLE (rows.filterMap FactRow.customer_state)).map
      (fun k => (k, freightMean (rows.filter (fun r => decide (r.customer_state = some k))))))

/-! Helper lemmas about the list primitives. -/

theorem mem_firstDedup {α : Type} [DecidableEq α] (a : α) :
    ∀ l : List α, a ∈ firstDedup l ↔ a ∈ l := by
  intro l
  induction l with
  | nil => exact Iff.rfl
  | cons x xs ih =>
    by_cases h : a = x
    · subst h
      simp [firstDedup]
    · simp [firstDedup, List.mem_filter, h, ih]

theorem nodup_firstDedup {α : Type} [DecidableEq α] :
    ∀ l : List α, (firstDedup l).Nodup := by
  intro l
  induction l with
  | nil => exact List.nodup_nil
  | cons x xs ih =>
    refine List.Nodup.cons ?_ (ih.filter _)
    intro hx
    rcases List.mem_filter.mp hx with ⟨-, hne⟩
    simp at hne

theorem perm_insertLE {α : Type} (le : α → α → Bool) (a : α) :
    ∀ l : List α, List.Perm (insertLE le a l) (a :: l) := by
  intro l
  induction l with
  | nil => exact List.Perm.refl _
  | cons b bs ih =>
    by_cases h : le a b
    · simp [insertLE, h]
    · simp only [insertLE, h, Bool.false_eq_true, if_false]
      exact (ih.cons b).trans (List.Perm.swap a b bs)

theorem perm_sortAsc {α : Type} (le : α → α → Bool) :
    ∀ l : List α, List.Perm (sortAsc le l) l := by
  intro l
  induction l with
  | nil => exact List.Perm.refl _
  | cons x xs ih => exact (perm_insertLE le x (sortAsc le xs)).trans (ih.cons x)

theorem mem_sortAsc {α : Type} (le : α → α → Bool) (a : α) (l : List α) :
    a ∈ sortAsc le l ↔ a ∈ l :=
  (perm_sortAsc le l).mem_iff

theorem length_sortAsc {α : Type} (le : α → α → Bool) (l : List α) :
    (sortAsc le l).length = l.length :=
  (perm_sortAsc le l).length_eq

theorem pairwise_insertLE {α : Type} {le : α → α → Bool}
    (trans : ∀ x y z, le x y = true → le y z = true → le x z = true)
    (total : ∀ x y, le x y = false → le y x = true) (a : α) :
    ∀ l : List α, l.Pairwise (fun x y => le x y = true) →
      (insertLE le a l).Pairwise (fun x y => le x y = true) := by
  intro l
  induction l with
  | nil => intro _; simp [insertLE]
  | cons b bs ih =>
    intro h
    rcases List.pairwise_cons.mp h with ⟨hb, htl⟩
    by_cases hab : le a b
    · simp only [insertLE, hab, if_true]
      refine List.pairwise_cons.mpr ⟨?_, h⟩
      intro y hy
      rcases List.mem_cons.mp hy with rfl | hy'
      · exact hab
      · exact trans a b y hab (hb y hy')
    · simp only [insertLE, hab, Bool.false_eq_true, if_false]
      refine List.pairwise_cons.mpr ⟨?_, ih htl⟩
      intro y hy
      rcases List.mem_cons.mp ((perm_insertLE le a bs).mem_iff.mp hy) with heq | hy'
      · rw [heq]
        exact total a b (by simpa using hab)
      · exact hb y hy'

theorem pairwise_sortAsc {α : Type} {le : α → α → Bool}
    (trans : ∀ x y z, le x y = true → le y z = true → le x z = true)
    (total : ∀ x y, le x y = false → le y x = true) :
    ∀ l : List α, (sortAsc le l).Pairwise (fun x y => le x y = true) := by
  intro l
  induction l with
  | nil => simp [sortAsc]
  | cons x xs ih => exact pairwise_insertLE trans total x (sortAsc le xs) ih

theorem filter_insertLE_pos {α : Type} {le : α → α → Bool} {P : α → Bool} {a : α}
    (hskip : ∀ y, le a y = false → P y = false) (ha : P a = true) :
    ∀ l : List α, (insertLE le a l).filter P = a :: l.filter P := by
  intro l
  induction l with
  | nil => simp [insertLE, ha]
  | cons b bs ih =>
    by_cases hab : le a b
    · simp [insertLE, hab, List.filter_cons, ha]
    · have hb : P b = false := hskip b (by simpa using hab)
      simp [insertLE, hab, List.filter_cons, hb, ih]

theorem filter_insertLE_neg {α : Type} {le : α → α → Bool} {P : α → Bool} {a : α}
    (ha : P a = false) :
    ∀ l : List α, (insertLE le a l).filter P = l.filter P := by
  intro l
  induction l with
  | nil => simp [insertLE, ha]
  | cons b bs ih =>
    by_cases hab : le a b
    · simp [insertLE, hab, List.filter_cons, ha]
    · simp [insertLE, hab, List.filter_cons, ih]

theorem filter_sortAsc {α : Type} {le : α → α → Bool} {P : α → Bool}
    (hcompat : ∀ x y, P x = true → le x y = false → P y = false) :
    ∀ l : List α, (sortAsc le l).filter P = l.filter P := by
  intro l
  induction l with
  | nil => rfl
  | cons x xs ih =>
    cases hx : P x
    · rw [sortAsc, filter_insertLE_neg hx, ih, List.filter_cons, hx]
      simp
    · rw [sortAsc, filter_insertLE_pos (fun y hy => hcompat x y hx hy) hx, ih,
        List.filter_cons, hx]
      simp

theorem mem_sortedKeys {α : Type} [DecidableEq α] (le : α → α → Bool) (a : α)
    (ks : List α) : a ∈ sortedKeys le ks ↔ a ∈ ks := by
  rw [sortedKeys, mem_sortAsc, mem_firstDedup]

theorem find?_keyed {α β : Type} [DecidableEq α] (f : α → β) (d : α) :
    ∀ ks : List α,
      (ks.map (fun k => (k, f k))).find? (fun p => decide (p.1 = d))
        = if d ∈ ks then some (d, f d) else none := by
  intro ks
  induction ks with
  | nil => simp
  | cons k ks ih =>
    by_cases h : k = d
    · subst h
      simp [List.find?]
    · have h' : ¬d = k := fun hdk => h hdk.symm
      simp [List.find?_cons, h, h', ih]

/-! Claim C2: sales by day of week. -/

/-- Concrete master row used in counterexamples: one priced line item with
the given purchase timestamp. -/
def demoFact (ts : Int) (price : ℚ) : FactRow :=
  mkFactRow ⟨1, 1, ts, none⟩ (some ⟨1, 1, 1, price, 0⟩) none none

/-- Claim C2 as stated is false: a filtered table with a single Monday row
(timestamp 345600, which is 1970-01-05, a Monday) produces a Tuesday slot
whose revenue is null, not zero, because reindex fills missing labels with
NaN. -/
theorem claim_C2_counterexample :
    (salesByDay [demoFact 345600 5]).map (fun p => (p.1, p.2.isSome)) =
      [("Monday", true), ("Tuesday", false), ("Wednesday", false), ("Thursday", false),
       ("Friday", false), ("Saturday", false), ("Sunday", false)] ∧
    (salesByDay [demoFact 345600 5])[1]? ≠ some ("Tuesday", some 0) := by
  exact ⟨by decide, by decide⟩

/-- Claim C2, amended: for every filtered fact table the sales-by-day query
emits exactly seven slots ordered Monday through Sunday, where a weekday
with at least one fact row carries the sum of its prices and a weekday with
no fact rows carries a null value (not zero). -/
theorem claim_C2_amended (rows : List FactRow) :
    salesByDay rows =
      dayOrder.map (fun d =>
        (d, if rows.any (fun r => decide (r.day_of_week = d))
            then some (priceSum (rows.filter (fun r => decide (r.day_of_week = d))))
            else none)) := by
  unfold salesByDay salesByDayGrouped
  apply List.map_congr_left
  intro d _
  rw [find?_keyed]
  by_cases h : d ∈ sortedKeys strLE (rows.map FactRow.day_of_week)
  · have hmem : d ∈ rows.map FactRow.day_of_week := (mem_sortedKeys _ _ _).mp h
    have hany : rows.any (fun r => decide (r.day_of_week = d)) = true := by
      rcases List.mem_map.mp hmem with ⟨r, hr, hrd⟩
      exact List.any_eq_true.mpr ⟨r, hr, by simp [hrd]⟩
    simp [h, hany]
  · have hmem : d ∉ rows.map FactRow.day_of_week := fun hc => h ((mem_sortedKeys _ _ _).mpr hc)
    have hany : rows.any (fun r => decide (r.day_of_week = d)) = false := by
      rw [List.any_eq_false]
      intro r hr
      simp only [decide_eq_true_eq]
      intro hrd
      exact hmem (List.mem_map.mpr ⟨r, hr, hrd⟩)
    simp [h, hany]

/-! Claim C4: date-range filter inclusivity. -/

/-- Claim C4: both the fact-table filter and the orders filter keep exactly
the rows whose purchase date lies in the closed interval from start to end,
time of day ignored; a row dated exactly on either bound is kept and a row
one day outside either bound is dropped, with the same predicate applied to
both tables. -/
theorem claim_C4 (rows : List FactRow) (os : List Order) (s e : Int) :
    (∀ r : FactRow, r ∈ filterFact rows s e ↔
        r ∈ rows ∧ s ≤ tsDate r.order_purchase_timestamp ∧ tsDate r.order_purchase_timestamp ≤ e) ∧
    (∀ o : Order, o ∈ filterOrders os s e ↔
        o ∈ os ∧ s ≤ tsDate o.order_purchase_timestamp ∧ tsDate o.order_purchase_timestamp ≤ e) ∧
    (∀ r : FactRow, r ∈ rows → tsDate r.order_purchase_timestamp = s → s ≤ e →
        r ∈ filterFact rows s e) ∧
    (∀ r : FactRow, r ∈ rows → tsDate r.order_purchase_timestamp = e → s ≤ e →
        r ∈ filterFact rows s e) ∧
    (∀ r : FactRow, tsDate r.order_purchase_timestamp = s - 1 → r ∉ filterFact rows s e) ∧
    (∀ r : FactRow, tsDate r.order_purchase_timestamp = e + 1 → r ∉ filterFact rows s e) := by
  have hfact : ∀ r : FactRow, r ∈ filterFact rows s e ↔
      r ∈ rows ∧ s ≤ tsDate r.order_purchase_timestamp ∧ tsDate r.order_purchase_timestamp ≤ e := by
    intro r
    simp [filterFact, List.mem_filter, datePred]
  have horder : ∀ o : Order, o ∈ filterOrders os s e ↔
      o ∈ os ∧ s ≤ tsDate o.order_purchase_timestamp ∧ tsDate o.order_purchase_timestamp ≤ e := by
    intro o
    simp [filterOrders, List.mem_filter, datePred]
  refine ⟨hfact, horder, ?_, ?_, ?_, ?_⟩
  · intro r hr hd hse
    exact (hfact r).mpr ⟨hr, by omega, by omega⟩
  · intro r hr hd hse
    exact (hfact r).mpr ⟨hr, by omega, by omega⟩
  · intro r hd hmem
    rcases (hfact r).mp hmem with ⟨-, h1, h2⟩
    omega
  · intro r hd hmem
    rcases (hfact r).mp hmem with ⟨-, h1, h2⟩
    omega

/-- Witness for claim C4 at a concrete table: the single row dated epoch
day 4 is kept by the range [4, 4] and dropped by a range ending the day
before. -/
theorem claim_C4_witness :
    demoFact 345600 5 ∈ filterFact [demoFact 345600 5] 4 4 ∧
    demoFact 345600 5 ∉ filterFact [demoFact 345600 5] 5 9 :=
  ⟨(claim_C4 [demoFact 345600 5] [] 4 4).1 (demoFact 345600 5)
      |>.mpr ⟨by decide, by decide, by decide⟩,
   (claim_C4 [demoFact 345600 5] [] 5 9).2.2.2.2.1 (demoFact 345600 5) (by decide)⟩

/-! Claim C7: average order value. -/

/-- Claim C7: with zero distinct orders the average order value is exactly
zero, and with a non-empty order set it is total revenue divided by the
distinct order count, which is then positive. -/
theorem claim_C7 (rows : List FactRow) (os : List Order) :
    (totalOrders os = 0 → avgOrderValue rows os = 0) ∧
    (os = [] → totalOrders os = 0) ∧
    (os ≠ [] → 0 < totalOrders os ∧
      avgOrderValue rows os = totalRevenue rows / (totalOrders os : ℚ)) := by
  refine ⟨?_, ?_, ?_⟩
  · intro h
    simp [avgOrderValue, h]
  · intro h
    subst h
    rfl
  · intro h
    have hpos : 0 < totalOrders os := by
      cases os with
      | nil => exact absurd rfl h
      | cons o os' =>
        simp only [totalOrders, List.map_cons, firstDedup, List.length_cons]
        omega
    exact ⟨hpos, by simp [avgOrderValue, hpos]⟩

/-- Concrete order used in witnesses: purchased at epoch day 4, delivered
two days later. -/
def demoOrder : Order := ⟨1, 1, 345600, some 518400⟩

/-- Concrete undelivered order used in witnesses. -/
def demoOrderNoDelivery : Order := ⟨2, 2, 345600, none⟩

/-- Witness for claim C7: the empty order set gives average order value 0,
and a one-order set has a positive distinct count. -/
theorem claim_C7_witness :
    avgOrderValue [demoFact 345600 5] [] = 0 ∧ 0 < totalOrders [demoOrder] :=
  ⟨(claim_C7 [demoFact 345600 5] []).1 rfl,
   ((claim_C7 [] [demoOrder]).2.2 (by decide)).1⟩

/-! Claim C8: review-order linkage. -/

/-- Claim C8: the review-score distribution draws from exactly the reviews
whose order_id appears in the filtered order set; a review with no matching
order is excluded even when its own creation date lies inside the range,
and each distribution count equals the count among linked reviews only. -/
theorem claim_C8 (rs : List Review) (os : List Order) :
    (∀ r : Review, r ∈ relevantReviews rs os ↔
        r ∈ rs ∧ ∃ o ∈ os, o.order_id = r.order_id) ∧
    (∀ r : Review, (∀ o ∈ os, o.order_id ≠ r.order_id) → ∀ s e : Int,
        s ≤ tsDate r.review_creation_date → tsDate r.review_creation_date ≤ e →
        r ∉ relevantReviews rs os) ∧
    (∀ p, p ∈ reviewDist rs os →
        p.2 = rs.countP (fun r => decide (r.review_score = p.1) &&
          os.any (fun o => decide (o.order_id = r.order_id)))) := by
  have hmem : ∀ r : Review, r ∈ relevantReviews rs os ↔
      r ∈ rs ∧ ∃ o ∈ os, o.order_id = r.order_id := by
    intro r
    simp [relevantReviews, List.mem_filter, List.any_eq_true]
  refine ⟨hmem, ?_, ?_⟩
  · intro r hno s e _ _ hc
    rcases (hmem r).mp hc with ⟨-, o, ho, hid⟩
    exact hno o ho hid
  · intro p hp
    rcases List.mem_map.mp hp with ⟨v, -, rfl⟩
    simp only [relevantReviews, List.countP_filter]

/-- Concrete linked review used in witnesses. -/
def demoReview : Review := ⟨1, 1, 5, 345600⟩

/-- Concrete review whose order is outside the filtered set, dated inside
the filter range. -/
def demoReviewOutside : Review := ⟨2, 99, 4, 345600⟩

/-- Witness for claim C8: the linked review is kept and the unlinked one is
dropped although its creation date (epoch day 4) lies inside the range
[4, 4]. -/
theorem claim_C8_witness :
    demoReview ∈ relevantReviews [demoReview, demoReviewOutside] [demoOrder] ∧
    demoReviewOutside ∉ relevantReviews [demoReview, demoReviewOutside] [demoOrder] :=
  ⟨((claim_C8 [demoReview, demoReviewOutside] [demoOrder]).1 demoReview).mpr
      ⟨by decide, demoOrder, by decide, by decide⟩,
   (claim_C8 [demoReview, demoReviewOutside] [demoOrder]).2.1 demoReviewOutside
      (by decide) 4 4 (by decide) (by decide)⟩

/-! Claim C9: mean delivery days ignores undelivered orders. -/

theorem filterMap_deliveryDays_eq (os : List Order) :
    os.filterMap deliveryDays =
      (os.filter (fun o => o.order_delivered_customer_date.isSome)).filterMap deliveryDays := by
  induction os with
  | nil => rfl
  | cons o os ih =>
    cases h : o.order_delivered_customer_date with
    | none =>
      rw [List.filterMap_cons_none (by simp [deliveryDays, h]), List.filter_cons]
      simpa [h] using ih
    | some d =>
      rw [List.filterMap_cons_some (f := deliveryDays) (b := Int.fdiv (d - o.order_purchase_timestamp) 86400)
            (by simp [deliveryDays, h]),
        List.filter_cons]
      simp only [h, Option.isSome_some, if_true]
      rw [List.filterMap_cons_some (f := deliveryDays) (b := Int.fdiv (d - o.order_purchase_timestamp) 86400)
            (by simp [deliveryDays, h]), ih]

theorem length_filterMap_deliveryDays (os : List Order) :
    (os.filterMap deliveryDays).length =
      (os.filter (fun o => o.order_delivered_customer_date.isSome)).length := by
  induction os with
  | nil => rfl
  | cons o os ih =>
    cases h : o.order_delivered_customer_date with
    | none =>
      rw [List.filterMap_cons_none (by simp [deliveryDays, h]), List.filter_cons]
      simpa [h] using ih
    | some d =>
      rw [List.filterMap_cons_some (f := deliveryDays) (b := Int.fdiv (d - o.order_purchase_timestamp) 86400)
            (by simp [deliveryDays, h]),
        List.filter_cons]
      simp only [h, Option.isSome_some, if_true, List.length_cons, ih]

/-- Claim C9: mean delivery days is computed over only the orders with a
delivered date: removing the undelivered orders changes nothing, the
denominator is the count of delivered orders, an all-undelivered set gives
a null mean, and on a set with at least one delivered order the mean is the
sum of whole-day durations over the number of delivered orders. -/
theorem claim_C9 (os : List Order) :
    avgDeliveryDays os =
      avgDeliveryDays (os.filter (fun o => o.order_delivered_customer_date.isSome)) ∧
    (os.filterMap deliveryDays).length =
      (os.filter (fun o => o.order_delivered_customer_date.isSome)).length ∧
    ((∀ o ∈ os, o.order_delivered_customer_date = none) → avgDeliveryDays os = none) ∧
    (os.filterMap deliveryDays ≠ [] →
      avgDeliveryDays os = some
        (((os.filterMap deliveryDays).map (fun d => (d : ℚ))).sum /
          ((os.filter (fun o => o.order_delivered_customer_date.isSome)).length : ℚ))) := by
  refine ⟨?_, length_filterMap_deliveryDays os, ?_, ?_⟩
  · rw [avgDeliveryDays, avgDeliveryDays, ← filterMap_deliveryDays_eq]
  · intro h
    have hnil : os.filterMap deliveryDays = [] := by
      rw [List.filterMap_eq_nil_iff]
      intro o ho
      simp [deliveryDays, h o ho]
    simp [avgDeliveryDays, hnil]
  · intro h
    have hlen : (os.filterMap deliveryDays).length ≠ 0 := by
      simpa [List.length_eq_zero] using h
    simp only [avgDeliveryDays, hlen, if_false]
    rw [length_filterMap_deliveryDays]

/-- Witness for claim C9: one delivered order (two days) and one
undelivered order give a defined mean whose denominator counts only the
delivered order. -/
theorem claim_C9_witness :
    avgDeliveryDays [demoOrder, demoOrderNoDelivery] = some
      ((([demoOrder, demoOrderNoDelivery].filterMap deliveryDays).map (fun d => (d : ℚ))).sum /
        (([demoOrder, demoOrderNoDelivery].filter
            (fun o => o.order_delivered_customer_date.isSome)).length : ℚ)) :=
  (claim_C9 [demoOrder, demoOrderNoDelivery]).2.2.2 (by decide)

/-! Claim C6: category-translation fallback. -/

/-- Concrete product whose raw category name is itself missing. -/
def demoProductNoCat : Product := ⟨1, none, none⟩

/-- Claim C6 as stated is false: a product whose raw category name is null
has no matching translation entry, and after loading its english category
name is still null, because fillna fills it with the null raw name. -/
theorem claim_C6_counterexample :
    (prepareProducts [demoProductNoCat] []).map ProductT.product_category_name_english = [none] ∧
    ¬ (∀ q ∈ prepareProducts [demoProductNoCat] [],
        q.product_category_name_english ≠ none) := by
  exact ⟨by decide, by decide⟩

/-- Claim C6, amended: every loaded product row whose raw category has no
translation entry carries the raw category name as its english name, and an
english name can only be null when the raw name of the same row is null
itself. -/
theorem claim_C6_amended (ps : List Product) (ts : List CategoryTranslation) :
    (∀ q ∈ prepareProducts ps ts,
      (¬ ∃ t ∈ ts, t.product_category_name = q.product_category_name) →
        q.product_category_name_english = q.product_category_name) ∧
    (∀ q ∈ prepareProducts ps ts,
      q.product_category_name_english = none → q.product_category_name = none) := by
  have hshape : ∀ q ∈ prepareProducts ps ts,
      (q.product_category_name_english = q.product_category_name ∧
        (¬ ∃ t ∈ ts, t.product_category_name = q.product_category_name)) ∨
      (∃ t ∈ ts, t.product_category_name = q.product_category_name ∧
        q.product_category_name_english =
          (match t.product_category_name_english with
            | some s => some s
            | none => q.product_category_name)) := by
    intro q hq
    rcases List.mem_map.mp hq with ⟨q0, hq0, rfl⟩
    rcases List.mem_flatMap.mp hq0 with ⟨p, hp, hq1⟩
    rcases hf : ts.filter
        (fun t => decide (t.product_category_name = p.product_category_name)) with _ | ⟨t0, ms⟩
    · rw [hf] at hq1
      simp only [List.mem_singleton] at hq1
      subst hq1
      left
      refine ⟨rfl, ?_⟩
      rintro ⟨t, ht, hteq⟩
      have : t ∈ ts.filter
          (fun t => decide (t.product_category_name = p.product_category_name)) :=
        List.mem_filter.mpr ⟨ht, by simpa using hteq⟩
      rw [hf] at this
      exact absurd this (List.not_mem_nil t)
    · rw [hf] at hq1
      rcases List.mem_map.mp hq1 with ⟨t, ht, rfl⟩
      right
      have htmem : t ∈ ts.filter
          (fun t => decide (t.product_category_name = p.product_category_name)) := by
        rw [hf]; exact ht
      rcases List.mem_filter.mp htmem with ⟨hts, hteq⟩
      refine ⟨t, hts, by simpa using hteq, ?_⟩
      cases t.product_category_name_english <;> rfl
  constructor
  · intro q hq hno
    rcases hshape q hq with ⟨heq, -⟩ | ⟨t, ht, hteq, -⟩
    · exact heq
    · exact absurd ⟨t, ht, hteq⟩ hno
  · intro q hq hnone
    rcases hshape q hq with ⟨heq, -⟩ | ⟨t, ht, hteq, hform⟩
    · rw [← heq, hnone]
    · rw [hform] at hnone
      rcases hcase : t.product_category_name_english with _ | s
      · rw [hcase] at hnone
        exact hnone
      · rw [hcase] at hnone
        exact absurd hnone (by simp)

/-- Witness for claim C6: an untranslated product with raw category name
"beleza" loads with english name equal to that raw name. -/
theorem claim_C6_witness :
    (⟨1, some "beleza", some "beleza", none⟩ : ProductT).product_category_name_english =
      (⟨1, some "beleza", some "beleza", none⟩ : ProductT).product_category_name :=
  (claim_C6_amended [⟨1, some "beleza", none⟩] []).1
    ⟨1, some "beleza", some "beleza", none⟩ (by decide) (by decide)

/-! Claim C10: delivery-time-vs-review-score boxplot input. -/

/-- Concrete order whose delivered date precedes its purchase timestamp by
one hour (purchase epoch second 864000, delivery 860400). -/
def demoOrderEarly : Order := ⟨1, 1, 864000, some 860400⟩

/-- Concrete review attached to the early-delivered order. -/
def demoReviewEarly : Review := ⟨1, 1, 1, 864000⟩

/-- Claim C10 as stated is false on its interval bound: an order delivered
one hour before its purchase timestamp has delivery_days equal to -1, which
passes the single comparison with 50 and stays in the boxplot input even
though -1 is outside [0, 50). -/
theorem claim_C10_counterexample :
    (boxInput [demoReviewEarly] [demoOrderEarly]).map (fun x => x.2.2) = [-1] ∧
    ¬ (∀ x ∈ boxInput [demoReviewEarly] [demoOrderEarly], 0 ≤ x.2.2) := by
  exact ⟨by decide, by decide⟩

/-- Claim C10, amended: the boxplot input consists of exactly the
review-order pairs joined on order_id from the filtered sets whose delivery
days are defined (delivered orders) and below 50 — the single comparison
removes both the null-delivery rows and the 50-or-more rows — and every
kept row also has nonnegative delivery days provided every delivered date
in the order set is at or after its purchase timestamp. -/
theorem claim_C10_amended (rs : List Review) (os : List Order) :
    (∀ r : Review, ∀ o : Order, ∀ d : Int, (r, o, d) ∈ boxInput rs os ↔
        (r ∈ rs ∧ o ∈ os ∧ o.order_id = r.order_id ∧
         deliveryDays o = some d ∧ d < 50)) ∧
    (∀ x ∈ boxInput rs os, x.2.1.order_delivered_customer_date.isSome) ∧
    ((∀ o ∈ os, ∀ dd : Int, o.order_delivered_customer_date = some dd →
        o.order_purchase_timestamp ≤ dd) →
      ∀ x ∈ boxInput rs os, 0 ≤ x.2.2 ∧ x.2.2 < 50) := by
  have hro : ∀ r : Review, ∀ o : Order, (r, o) ∈ reviewsOrders rs os ↔
      (r ∈ rs ∧ o ∈ os ∧ o.order_id = r.order_id) := by
    intro r o
    simp only [reviewsOrders, List.mem_flatMap, List.mem_map, List.mem_filter,
      relevantReviews, List.any_eq_true, decide_eq_true_eq]
    constructor
    · rintro ⟨r', ⟨hr', -⟩, o2, ⟨ho2, hid2⟩, heq⟩
      cases heq
      exact ⟨hr', ho2, hid2⟩
    · rintro ⟨hr, ho, hid⟩
      exact ⟨r, ⟨hr, ⟨o, ho, hid⟩⟩, o, ⟨ho, hid⟩, rfl⟩
  have hiff : ∀ r : Review, ∀ o : Order, ∀ d : Int, (r, o, d) ∈ boxInput rs os ↔
      (r ∈ rs ∧ o ∈ os ∧ o.order_id = r.order_id ∧
       deliveryDays o = some d ∧ d < 50) := by
    intro r o d
    simp only [boxInput, List.mem_filterMap]
    constructor
    · rintro ⟨⟨r', o'⟩, hmem, hf⟩
      rcases hdd : deliveryDays o' with _ | dd
      · rw [hdd] at hf
        exact absurd hf (by simp)
      · rw [hdd] at hf
        simp only at hf
        by_cases h50 : dd < 50
        · rw [if_pos h50] at hf
          injection hf with hf'
          obtain ⟨rfl, rfl, rfl⟩ : r' = r ∧ o' = o ∧ dd = d := by
            exact ⟨congrArg Prod.fst hf', congrArg (fun y => y.2.1) hf',
              congrArg (fun y => y.2.2) hf'⟩
          rcases (hro r' o').mp hmem with ⟨hr, ho, hid⟩
          exact ⟨hr, ho, hid, hdd, h50⟩
        · rw [if_neg h50] at hf
          exact absurd hf (by simp)
    · rintro ⟨hr, ho, hid, hdd, h50⟩
      refine ⟨(r, o), (hro r o).mpr ⟨hr, ho, hid⟩, ?_⟩
      simp only [hdd]
      rw [if_pos h50]
  refine ⟨hiff, ?_, ?_⟩
  · rintro ⟨r, o, d⟩ hx
    rcases (hiff r o d).mp hx with ⟨-, -, -, hdd, -⟩
    rcases Option.map_eq_some'.mp hdd with ⟨dd, hdel, -⟩
    simp [hdel]
  · rintro hmono ⟨r, o, d⟩ hx
    rcases (hiff r o d).mp hx with ⟨-, ho, -, hdd, h50⟩
    rcases Option.map_eq_some'.mp hdd with ⟨dd, hdel, hd⟩
    refine ⟨?_, h50⟩
    rw [← hd]
    exact Int.fdiv_nonneg (by have := hmono o ho dd hdel; omega) (by omega)

/-- Witness for claim C10: a review-order pair delivered in two days is in
the boxplot input, and under the delivered-after-purchase assumption the
theorem bounds its delivery days within [0, 50). -/
theorem claim_C10_witness :
    ((demoReview, demoOrder, 2) ∈ boxInput [demoReview] [demoOrder]) ∧
    (0 ≤ (2 : Int) ∧ (2 : Int) < 50) :=
  ⟨((claim_C10_amended [demoReview] [demoOrder]).1 demoReview demoOrder 2).mpr
      ⟨by decide, by decide, by decide, by decide, by decide⟩,
   by
    have h := (claim_C10_amended [demoReview] [demoOrder]).2.2 (by decide)
      (demoReview, demoOrder, 2)
      (((claim_C10_amended [demoReview] [demoOrder]).1 demoReview demoOrder 2).mpr
        ⟨by decide, by decide, by decide, by decide, by decide⟩)
    exact h⟩

/-! Claim C1: master-table row count. -/

/-- Concrete order with no items, used as the failing input for the
row-count guarantee. -/
def demoOrderC1 : Order := ⟨1, 1, 345600, none⟩

/-- Claim C1 evaluated at the failing input: one order and an empty item
table.  The orders-to-items left join keeps the itemless order as one
master row with null item columns, so the master table has 1 row while the
item table has 0, refuting the row-count guarantee (and the code comment's
stated intent of starting from the items side). -/
theorem claim_C1_code_eval :
    (buildMaster [demoOrderC1] [] [] [] []).length = 1 ∧
    ([] : List Item).length = 0 ∧
    (buildMaster [demoOrderC1] [] [] [] []).length ≠ ([] : List Item).length ∧
    (buildMaster [demoOrderC1] [] [] [] []).map FactRow.price = [none] := by
  exact ⟨by decide, rfl, by decide, by decide⟩

/-! Claim C5: empty-range behavior of the filter and every page query. -/

/-- Claim C5: when the start date is after the end date, both filters yield
zero rows, and every page query over the resulting empty tables returns a
zero, null, or empty output — no query is undefined there.  Sales-by-day
still emits its seven ordered slots, all null. -/
theorem claim_C5 (master : List FactRow) (orders : List Order) (rs : List Review)
    (ps : List Payment) (items : List Item) (prods : List ProductT) (s e : Int)
    (h : e < s) :
    filterFact master s e = [] ∧
    filterOrders orders s e = [] ∧
    totalRevenue (filterFact master s e) = 0 ∧
    totalOrders (filterOrders orders s e) = 0 ∧
    avgOrderValue (filterFact master s e) (filterOrders orders s e) = 0 ∧
    avgDeliveryDays (filterOrders orders s e) = none ∧
    salesOverTime (filterFact master s e) = [] ∧
    salesByDay (filterFact master s e) = dayOrder.map (fun d => (d, none)) ∧
    salesByHour (filterFact master s e) = [] ∧
    (∀ n : Nat, categorySales (filterFact master s e) n = []) ∧
    priceValues (filterFact master s e) = [] ∧
    stateCounts (filterFact master s e) = [] ∧
    cityCounts (filterFact master s e) = [] ∧
    relevantReviews rs (filterOrders orders s e) = [] ∧
    reviewDist rs (filterOrders orders s e) = [] ∧
    boxInput rs (filterOrders orders s e) = [] ∧
    relevantPayments ps (filterOrders orders s e) = [] ∧
    paymentTypeCounts ps (filterOrders orders s e) = [] ∧
    installmentValues ps (filterOrders orders s e) = [] ∧
    safePayments ps (filterOrders orders s e) = [] ∧
    deliveryTable (filterOrders orders s e) = [] ∧
    relevantItems items prods (filterOrders orders s e) = [] ∧
    stateFreight (filterFact master s e) = [] := by
  have hFact : filterFact master s e = [] := by
    rw [filterFact, List.filter_eq_nil_iff]
    intro r _
    simp only [datePred, Bool.and_eq_true, decide_eq_true_eq, not_and]
    omega
  have hOrd : filterOrders orders s e = [] := by
    rw [filterOrders, List.filter_eq_nil_iff]
    intro o _
    simp only [datePred, Bool.and_eq_true, decide_eq_true_eq, not_and]
    omega
  rw [hFact, hOrd]
  have hrr : relevantReviews rs [] = [] := by simp [relevantReviews]
  have hrp : relevantPayments ps [] = [] := by simp [relevantPayments]
  refine ⟨rfl, rfl, rfl, rfl, rfl, rfl, rfl, by decide, rfl, fun n => List.take_nil, rfl, rfl,
    rfl, hrr, ?_, ?_, hrp, ?_, ?_, ?_, rfl, ?_, rfl⟩
  · simp [reviewDist, hrr, sortedKeys, firstDedup, sortAsc]
  · simp [boxInput, reviewsOrders, hrr]
  · simp only [paymentTypeCounts, hrp, List.map_nil]
    rfl
  · simp [installmentValues, hrp]
  · simp [safePayments, hrp]
  · simp [relevantItems]

/-- Witness for claim C5 at a concrete reversed range (start 5, end 4):
the fact filter of a non-empty table is empty. -/
theorem claim_C5_witness :
    filterFact [demoFact 345600 5] 5 4 = [] :=
  (claim_C5 [demoFact 345600 5] [demoOrder] [demoReview] [] [] [] 5 4 (by decide)).1

/-! Claim C3: top-N categories by revenue. -/

/-- Concrete master row carrying a priced line item in the given category. -/
def demoFactCat (c : String) (price : ℚ) : FactRow :=
  mkFactRow ⟨1, 1, 345600, none⟩ (some ⟨1, 1, 1, price, 0⟩) (some ⟨1, some c, some c, none⟩) none

/-- Claim C3: for every filtered fact table and every top_n, the query
returns the min(top_n, number of categories) rows, sorted by revenue in
non-increasing order; every returned row is a grouped category row and
every omitted category has revenue at most that of every returned one — so
the output is the top_n categories with the highest summed price — and
categories with equal revenue keep their original (insertion-stable)
pre-sort order: for each revenue value the returned rows of that value are
an initial segment of the grouped rows of that value, in the same order. -/
theorem claim_C3 (rows : List FactRow) (top_n : Nat) :
    (categorySales rows top_n).length = min top_n (groupedCategorySales rows).length ∧
    (categorySales rows top_n).Pairwise (fun a b => b.2 ≤ a.2) ∧
    (∀ p ∈ categorySales rows top_n, p ∈ groupedCategorySales rows) ∧
    (∀ q ∈ groupedCategorySales rows, q ∉ categorySales rows top_n →
      ∀ p ∈ categorySales rows top_n, q.2 ≤ p.2) ∧
    (∀ v : ℚ, (categorySales rows top_n).filter (fun p => decide (p.2 = v)) =
      ((groupedCategorySales rows).filter (fun p => decide (p.2 = v))).take
        ((categorySales rows top_n).filter (fun p => decide (p.2 = v))).length) := by
  have htrans : ∀ x y z : String × ℚ,
      decide (x.2 ≤ y.2) = true → decide (y.2 ≤ z.2) = true → decide (x.2 ≤ z.2) = true := by
    intro x y z hxy hyz
    simp only [decide_eq_true_eq] at hxy hyz ⊢
    exact le_trans hxy hyz
  have htotal : ∀ x y : String × ℚ,
      decide (x.2 ≤ y.2) = false → decide (y.2 ≤ x.2) = true := by
    intro x y hxy
    simp only [decide_eq_false_iff_not] at hxy
    simp only [decide_eq_true_eq]
    exact le_of_not_le hxy
  have hperm : List.Perm
      (sortAsc (fun a b : String × ℚ => decide (a.2 ≤ b.2)) (groupedCategorySales rows).reverse)
      (groupedCategorySales rows).reverse := perm_sortAsc _ _
  have hpair : (sortAsc (fun a b : String × ℚ => decide (a.2 ≤ b.2))
      (groupedCategorySales rows).reverse).Pairwise (fun x y => decide (x.2 ≤ y.2) = true) :=
    pairwise_sortAsc htrans htotal _
  have hcat : categorySales rows top_n =
      ((sortAsc (fun a b : String × ℚ => decide (a.2 ≤ b.2))
        (groupedCategorySales rows).reverse).reverse).take top_n := rfl
  have hdesc : ((sortAsc (fun a b : String × ℚ => decide (a.2 ≤ b.2))
      (groupedCategorySales rows).reverse).reverse).Pairwise
      (fun a b : String × ℚ => b.2 ≤ a.2) := by
    rw [List.pairwise_reverse]
    exact hpair.imp (fun h => by simpa using h)
  rw [hcat]
  refine ⟨?_, ?_, ?_, ?_, ?_⟩
  · rw [List.length_take, List.length_reverse, length_sortAsc, List.length_reverse]
  · exact List.Pairwise.sublist (List.take_sublist _ _) hdesc
  · intro p hp
    exact List.mem_reverse.mp
      (hperm.mem_iff.mp (List.mem_reverse.mp (List.take_subset _ _ hp)))
  · intro q hq hqout p hp
    have hq' : q ∈ (sortAsc (fun a b : String × ℚ => decide (a.2 ≤ b.2))
        (groupedCategorySales rows).reverse).reverse :=
      List.mem_reverse.mpr (hperm.mem_iff.mpr (List.mem_reverse.mpr hq))
    rw [← List.take_append_drop top_n
      ((sortAsc (fun a b : String × ℚ => decide (a.2 ≤ b.2))
        (groupedCategorySales rows).reverse).reverse)] at hq'
    rcases List.mem_append.mp hq' with h | h
    · exact absurd h hqout
    · have hdesc2 : ((((sortAsc (fun a b : String × ℚ => decide (a.2 ≤ b.2))
          (groupedCategorySales rows).reverse).reverse).take top_n) ++
          (((sortAsc (fun a b : String × ℚ => decide (a.2 ≤ b.2))
          (groupedCategorySales rows).reverse).reverse).drop top_n)).Pairwise
          (fun a b : String × ℚ => b.2 ≤ a.2) := by
        rw [List.take_append_drop]
        exact hdesc
      exact (List.pairwise_append.mp hdesc2).2.2 p hp q h
  · intro v
    have hcompat : ∀ x y : String × ℚ, decide (x.2 = v) = true →
        decide (x.2 ≤ y.2) = false → decide (y.2 = v) = false := by
      intro x y hx hxy
      simp only [decide_eq_true_eq] at hx
      simp only [decide_eq_false_iff_not] at hxy ⊢
      intro hyv
      exact hxy (le_of_eq (by rw [hx, hyv]))
    have hstab : (sortAsc (fun a b : String × ℚ => decide (a.2 ≤ b.2))
        (groupedCategorySales rows).reverse).filter (fun p => decide (p.2 = v)) =
        ((groupedCategorySales rows).filter (fun p => decide (p.2 = v))).reverse := by
      rw [filter_sortAsc hcompat, List.filter_reverse]
    have hdscfilter : ((sortAsc (fun a b : String × ℚ => decide (a.2 ≤ b.2))
        (groupedCategorySales rows).reverse).reverse).filter (fun p => decide (p.2 = v)) =
        (groupedCategorySales rows).filter (fun p => decide (p.2 = v)) := by
      rw [List.filter_reverse, hstab, List.reverse_reverse]
    rw [← hdscfilter]
    have hsplit : ((sortAsc (fun a b : String × ℚ => decide (a.2 ≤ b.2))
        (groupedCategorySales rows).reverse).reverse).filter (fun p => decide (p.2 = v)) =
        (((sortAsc (fun a b : String × ℚ => decide (a.2 ≤ b.2))
          (groupedCategorySales rows).reverse).reverse).take top_n).filter
            (fun p => decide (p.2 = v)) ++
        (((sortAsc (fun a b : String × ℚ => decide (a.2 ≤ b.2))
          (groupedCategorySales rows).reverse).reverse).drop top_n).filter
            (fun p => decide (p.2 = v)) := by
      conv_lhs => rw [← List.take_append_drop top_n
        ((sortAsc (fun a b : String × ℚ => decide (a.2 ≤ b.2))
          (groupedCategorySales rows).reverse).reverse)]
      rw [List.filter_append]
    rw [hsplit, List.take_left]

/-- Witness for claim C3: at two categories with revenues 10 and 7 and a
top-1 request, the theorem yields that the omitted category revenue 7 is
at most the returned revenue 10 and that exactly one row is returned; and
at two tied categories the query is evaluated to return them in their
original order a, b. -/
theorem claim_C3_witness :
    (7 : ℚ) ≤ 10 ∧
    (categorySales [demoFactCat "a" 10, demoFactCat "b" 7] 1).length =
      min 1 (groupedCategorySales [demoFactCat "a" 10, demoFactCat "b" 7]).length ∧
    (categorySales [demoFactCat "a" 10, demoFactCat "b" 10] 5).map Prod.fst = ["a", "b"] := by
  have hg : groupedCategorySales [demoFactCat "a" 10, demoFactCat "b" 7] =
      [("a", 10), ("b", 7)] := by
    simp [groupedCategorySales, sortedKeys, firstDedup, sortAsc, insertLE, strLE, charListLE,
      priceSum, demoFactCat, mkFactRow, List.filter_cons, List.filterMap_cons]
  have hc : categorySales [demoFactCat "a" 10, demoFactCat "b" 7] 1 = [("a", 10)] := by
    rw [categorySales, hg]
    norm_num [sortValuesDesc, sortAsc, insertLE]
  refine ⟨(claim_C3 [demoFactCat "a" 10, demoFactCat "b" 7] 1).2.2.2.1
      ("b", 7) ?_ ?_ ("a", 10) ?_,
    (claim_C3 [demoFactCat "a" 10, demoFactCat "b" 7] 1).1, ?_⟩
  · rw [hg]
    simp
  · rw [hc]
    simp
  · rw [hc]
    simp
  · simp [categorySales, groupedCategorySales, sortValuesDesc, sortedKeys, firstDedup,
      sortAsc, insertLE, strLE, charListLE, priceSum, demoFactCat, mkFactRow,
      List.filter_cons, List.filterMap_cons]

end Olist
